import Mathlib

/-!
Shallow embedding of the `serde-evaluate` field-extraction engine.

The Rust crate extracts scalar leaf values from a nested composite record by
driving the record's serde `Serialize` implementation into a custom serializer
(`FieldValueExtractorSerializer`).  This file embeds the serde data model as an
inductive `Value`, the serializer's callback methods as a mutual recursion over
`Value`, and the public extractor facades (`FieldExtractor`,
`NestedFieldExtractor`, `ListFieldExtractor`, `NestedListFieldExtractor`,
`CompositeFieldExtractor`) as functions from a path and a `Value` to
`Except EvaluateError _`.
-/

/-- Mirror of `src/value.rs` `FieldScalarValue`: the flat tagged union of
extractable leaf kinds, with the single recursive `option` case
(`Option(Option<Box<FieldScalarValue>>)` in Rust).  Integer payloads are kept
as `Int`/`Nat`; `f32`/`f64` payloads are carried as opaque bit patterns since
the serializer never computes with them. -/
inductive FieldScalarValue where
  | unit : FieldScalarValue
  | bool (b : Bool) : FieldScalarValue
  | i8 (n : Int) : FieldScalarValue
  | i16 (n : Int) : FieldScalarValue
  | i32 (n : Int) : FieldScalarValue
  | i64 (n : Int) : FieldScalarValue
  | i128 (n : Int) : FieldScalarValue
  | u8 (n : Nat) : FieldScalarValue
  | u16 (n : Nat) : FieldScalarValue
  | u32 (n : Nat) : FieldScalarValue
  | u64 (n : Nat) : FieldScalarValue
  | u128 (n : Nat) : FieldScalarValue
  | f32 (bits : Nat) : FieldScalarValue
  | f64 (bits : Nat) : FieldScalarValue
  | char (c : Char) : FieldScalarValue
  | string (s : String) : FieldScalarValue
  | bytes (bs : List Nat) : FieldScalarValue
  | option (o : Option FieldScalarValue) : FieldScalarValue

/-- Mirror of `src/error.rs` `EvaluateError`. -/
inductive EvaluateError where
  | FieldNotFound (fieldName : String) : EvaluateError
  | NestedFieldNotFound (path : List String) (failedAtIndex : Option Nat) : EvaluateError
  | NotAStruct (segment : String) (index : Nat) : EvaluateError
  | UnsupportedType (typeName : String) : EvaluateError
  | UnsupportedVariant (variantType : String) : EvaluateError
  | InvalidPath (msg : String) : EvaluateError
  | SerializationError (msg : String) : EvaluateError

/-- Mirror of `src/serializer/mod.rs` `ExtractionMode`. -/
inductive ExtractionMode where
  | Scalar : ExtractionMode
  | List : ExtractionMode

/-- Mirror of `src/serializer/mod.rs` `wrap_in_options`: wrap a value in
`level` layers of `Option(Some(..))`. -/
def wrapInOptions (value : FieldScalarValue) : Nat → FieldScalarValue
  | 0 => value
  | n + 1 => .option (some (wrapInOptions value n))

mutual
/-- The serde data model, i.e. every shape a `Serialize` implementation can
announce to a serializer: the 14 primitive scalars plus `str`, `bytes`,
`none`/`some`, `unit`, unit struct, unit variant, newtype struct / variant,
seq, tuple, tuple struct / variant, map, struct and struct variant.  Mutual
inductives stand in for the nested `Vec` payloads so that the serializer
below is structurally recursive. -/
inductive Value where
  | vBool (b : Bool) : Value
  | vI8 (n : Int) : Value
  | vI16 (n : Int) : Value
  | vI32 (n : Int) : Value
  | vI64 (n : Int) : Value
  | vI128 (n : Int) : Value
  | vU8 (n : Nat) : Value
  | vU16 (n : Nat) : Value
  | vU32 (n : Nat) : Value
  | vU64 (n : Nat) : Value
  | vU128 (n : Nat) : Value
  | vF32 (bits : Nat) : Value
  | vF64 (bits : Nat) : Value
  | vChar (c : Char) : Value
  | vStr (s : String) : Value
  | vBytes (bs : List Nat) : Value
  | vNone : Value
  | vSome (inner : Value) : Value
  | vUnit : Value
  | vUnitStruct (sname : String) : Value
  | vUnitVariant (ename vname : String) : Value
  | vNewtypeStruct (sname : String) (inner : Value) : Value
  | vNewtypeVariant (ename vname : String) (inner : Value) : Value
  | vSeq (elems : ValueList) : Value
  | vTuple (elems : ValueList) : Value
  | vTupleStruct (sname : String) (elems : ValueList) : Value
  | vTupleVariant (ename vname : String) (elems : ValueList) : Value
  | vMap (entries : EntryList) : Value
  | vStruct (sname : String) (fields : FieldList) : Value
  | vStructVariant (ename vname : String) (fields : FieldList) : Value

inductive ValueList where
  | nil : ValueList
  | cons (v : Value) (rest : ValueList) : ValueList

inductive FieldList where
  | nil : FieldList
  | cons (key : String) (v : Value) (rest : FieldList) : FieldList

inductive EntryList where
  | nil : EntryList
  | cons (k v : Value) (rest : EntryList) : EntryList
end

/-- Mirror of `src/serializer/key.rs` `StringKeySerializer`: serializing a map
key records it when it is a string (`serialize_str`) and fails on every other
callback; `serialize_some` is the one rejection with type name `"Option"`.
The returned `Option String` is the serializer's `key` field after a
successful run. -/
def captureKey : Value → Except EvaluateError (Option String)
  | .vStr s => .ok (some s)
  | .vSome _ => .error (.UnsupportedType "Option")
  | _ => .error (.UnsupportedType "Map key must be a string")

/-- Mirror of `src/serializer/scalar_capture.rs` `ScalarCaptureSerializer`:
a single-use receiver that records one scalar (or optional) value and rejects
every compound callback.  The returned `Option FieldScalarValue` is the
serializer's `value` field after a successful run. -/
def captureScalar : Value → Except EvaluateError (Option FieldScalarValue)
  | .vBool b => .ok (some (.bool b))
  | .vI8 n => .ok (some (.i8 n))
  | .vI16 n => .ok (some (.i16 n))
  | .vI32 n => .ok (some (.i32 n))
  | .vI64 n => .ok (some (.i64 n))
  | .vI128 n => .ok (some (.i128 n))
  | .vU8 n => .ok (some (.u8 n))
  | .vU16 n => .ok (some (.u16 n))
  | .vU32 n => .ok (some (.u32 n))
  | .vU64 n => .ok (some (.u64 n))
  | .vU128 n => .ok (some (.u128 n))
  | .vF32 bits => .ok (some (.f32 bits))
  | .vF64 bits => .ok (some (.f64 bits))
  | .vChar c => .ok (some (.char c))
  | .vStr s => .ok (some (.string s))
  | .vBytes bs => .ok (some (.bytes bs))
  | .vNone => .ok (some (.option none))
  | .vSome inner =>
      match captureScalar inner with
      | .error e => .error e
      | .ok (some innerVal) => .ok (some (.option (some innerVal)))
      | .ok none => .ok none
  | .vUnit => .ok (some .unit)
  | .vUnitStruct _ => .ok (some .unit)
  | .vUnitVariant _ _ => .ok (some .unit)
  | .vNewtypeStruct _ inner => captureScalar inner
  | .vNewtypeVariant _ _ _ => .error (.UnsupportedVariant "newtype")
  | .vSeq _ => .error (.UnsupportedType "nested sequence")
  | .vTuple _ => .error (.UnsupportedType "tuple")
  | .vTupleStruct _ _ => .error (.UnsupportedType "tuple struct")
  | .vTupleVariant _ _ _ => .error (.UnsupportedVariant "tuple")
  | .vMap _ => .error (.UnsupportedType "map")
  | .vStruct _ _ => .error (.UnsupportedType "struct")
  | .vStructVariant _ _ _ => .error (.UnsupportedVariant "struct")

/-- Mirror of `src/serializer/extractor.rs` `FieldValueExtractorSerializer`,
flattening its `ExtractorConfig` (`path`, `extraction_mode`),
`TraversalState` (`current_path_index`, `current_map_key_match`,
`ready_to_capture`, `option_nesting_level`) and `ExtractionResult`
(`value`, `list_values`) into one record.  The `u8` nesting level is a `Nat`
whose `checked_add` bound of 255 is tested explicitly where the code does. -/
structure ExtractorState where
  path : List String
  extractionMode : ExtractionMode
  currentPathIndex : Nat
  currentMapKeyMatch : Option Bool
  readyToCapture : Bool
  optionNestingLevel : Nat
  value : Option FieldScalarValue
  listValues : List FieldScalarValue

/-- Mirror of `FieldValueExtractorSerializer::with_mode`. -/
def withMode (path : List String) (mode : ExtractionMode) : ExtractorState :=
  { path := path
    extractionMode := mode
    currentPathIndex := 0
    currentMapKeyMatch := none
    readyToCapture := false
    optionNestingLevel := 0
    value := none
    listValues := [] }

/-- Mirror of `FieldValueExtractorSerializer::capture_value`. -/
def captureValue (s : ExtractorState) (v : FieldScalarValue) : ExtractorState :=
  if s.readyToCapture then
    { s with value := some (wrapInOptions v s.optionNestingLevel) }
  else s

/-- Mirror of `SerializeStruct::end` for the main serializer. -/
def structEnd (s : ExtractorState) : Except EvaluateError ExtractorState :=
  if s.value.isNone ∧ 0 < s.currentPathIndex ∧ s.currentPathIndex < s.path.length then
    .error (.NestedFieldNotFound s.path (some s.currentPathIndex))
  else .ok s

/-- Mirror of `SerializeMap::serialize_key` for the main serializer: reset the
match flag, and resolve the key through `StringKeySerializer` (propagating its
error) only while no result is stored and the path is not exhausted. -/
def mapKeyStep (s : ExtractorState) (k : Value) : Except EvaluateError ExtractorState :=
  let s0 := { s with currentMapKeyMatch := none }
  if s0.value.isNone ∧ s0.currentPathIndex < s0.path.length then
    match captureKey k with
    | .error e => .error e
    | .ok (some keyStr) =>
        if s0.path[s0.currentPathIndex]? = some keyStr then
          .ok { s0 with currentMapKeyMatch := some true }
        else
          .ok { s0 with currentMapKeyMatch := some false }
    | .ok none => .ok { s0 with currentMapKeyMatch := some false }
  else
    .ok { s0 with currentMapKeyMatch := some false }

mutual
/-- Mirror of `impl Serializer for &mut FieldValueExtractorSerializer`
(`src/serializer/extractor.rs`): one case per serde callback, composed with
the loops the serde derive drives (`serialize_field` per struct field then
`SerializeStruct::end`, `serialize_key`/`serialize_value` per map entry then
`SerializeMap::end`, `serialize_element` per sequence element then
`SerializeSeq::end`). -/
def serializeValue (s : ExtractorState) : Value → Except EvaluateError ExtractorState
  | .vBool b => .ok (captureValue s (.bool b))
  | .vI8 n => .ok (captureValue s (.i8 n))
  | .vI16 n => .ok (captureValue s (.i16 n))
  | .vI32 n => .ok (captureValue s (.i32 n))
  | .vI64 n => .ok (captureValue s (.i64 n))
  | .vI128 n => .ok (captureValue s (.i128 n))
  | .vU8 n => .ok (captureValue s (.u8 n))
  | .vU16 n => .ok (captureValue s (.u16 n))
  | .vU32 n => .ok (captureValue s (.u32 n))
  | .vU64 n => .ok (captureValue s (.u64 n))
  | .vU128 n => .ok (captureValue s (.u128 n))
  | .vF32 bits => .ok (captureValue s (.f32 bits))
  | .vF64 bits => .ok (captureValue s (.f64 bits))
  | .vChar c => .ok (captureValue s (.char c))
  | .vStr str => .ok (captureValue s (.string str))
  | .vBytes bs => .ok (captureValue s (.bytes bs))
  | .vUnit => .ok (captureValue s .unit)
  | .vUnitStruct _ => .ok (captureValue s .unit)
  | .vUnitVariant _ _ => .ok (captureValue s .unit)
  | .vNone =>
      if s.readyToCapture then
        match s.extractionMode with
        | .Scalar =>
            .ok { s with value := some (wrapInOptions (.option none) s.optionNestingLevel) }
        | .List =>
            .ok { s with value := some .unit, readyToCapture := false }
      else .ok s
  | .vSome inner =>
      if s.readyToCapture then
        if s.optionNestingLevel = 255 then
          .error (.UnsupportedType "Deeply Nested Option (>255 levels)")
        else
          match serializeValue { s with optionNestingLevel := s.optionNestingLevel + 1 } inner with
          | .ok s2 => .ok { s2 with optionNestingLevel := s.optionNestingLevel }
          | .error e => .error e
      else serializeValue s inner
  | .vNewtypeStruct _ inner => serializeValue s inner
  | .vNewtypeVariant _ _ _ => .error (.UnsupportedVariant "newtype")
  | .vSeq elems =>
      if s.readyToCapture then
        match s.extractionMode with
        | .Scalar => .error (.UnsupportedType "sequence")
        | .List =>
            match serializeListElems s elems with
            | .ok s2 => .ok { s2 with value := some .unit, readyToCapture := false }
            | .error e => .error e
      else .ok s
  | .vTuple _ =>
      if s.readyToCapture then .error (.UnsupportedType "tuple") else .ok s
  | .vTupleStruct _ _ =>
      if s.readyToCapture then .error (.UnsupportedType "tuple struct") else .ok s
  | .vTupleVariant _ _ _ => .error (.UnsupportedVariant "tuple")
  | .vMap entries =>
      if s.path.isEmpty then .error (.FieldNotFound "<internal error: empty path>")
      else if s.path.length ≤ s.currentPathIndex then
        if s.readyToCapture then .error (.UnsupportedType "map")
        else serializeMapEntries s entries
      else serializeMapEntries { s with readyToCapture := true } entries
  | .vStruct _ fields =>
      if s.path.length ≤ s.currentPathIndex ∧ s.readyToCapture then
        .error (.UnsupportedType "struct")
      else
        match serializeStructFields s fields with
        | .ok s2 => structEnd s2
        | .error e => .error e
  | .vStructVariant _ _ _ => .error (.UnsupportedVariant "struct")

/-- Mirror of `ListCapture::serialize_element` iterated over the sequence,
with `ListCapture::end` handled at the `vSeq` case above: each element runs
through a fresh `ScalarCaptureSerializer`; a captured scalar is pushed onto
`list_values`. -/
def serializeListElems (s : ExtractorState) : ValueList → Except EvaluateError ExtractorState
  | .nil => .ok s
  | .cons v rest =>
      match captureScalar v with
      | .error e => .error e
      | .ok (some sc) => serializeListElems { s with listValues := s.listValues ++ [sc] } rest
      | .ok none => serializeListElems s rest

/-- Mirror of `SerializeStruct::serialize_field` iterated over the struct's
fields: once a result is stored every remaining field is ignored; a field
whose key equals the current path segment advances the index, serializes its
value (with `ready_to_capture` set when the advanced index exhausts the path,
cleared again afterwards) and restores the index; any other field is skipped
without being serialized. -/
def serializeStructFields (s : ExtractorState) : FieldList → Except EvaluateError ExtractorState
  | .nil => .ok s
  | .cons key v rest =>
      if s.value.isSome then serializeStructFields s rest
      else if s.path[s.currentPathIndex]? = some key then
        let s1 := { s with currentPathIndex := s.currentPathIndex + 1 }
        let r :=
          if s1.currentPathIndex = s1.path.length then
            match serializeValue { s1 with readyToCapture := true } v with
            | .ok s2 => .ok { s2 with readyToCapture := false }
            | .error e => .error e
          else serializeValue s1 v
        match r with
        | .ok s2 => serializeStructFields { s2 with currentPathIndex := s2.currentPathIndex - 1 } rest
        | .error e => .error e
      else serializeStructFields s rest

/-- Mirror of `SerializeMap::serialize_key` followed by
`SerializeMap::serialize_value` iterated over the map's entries: the stored
match flag is taken; a matching key's value is serialized like a matching
struct field; a non-matching (or unresolved) key's value is drained through a
fresh serializer with an empty path whose outcome is discarded
(`let _ = value.serialize(&mut dummy_serializer)`). -/
def serializeMapEntries (s : ExtractorState) : EntryList → Except EvaluateError ExtractorState
  | .nil => .ok s
  | .cons k v rest =>
      match mapKeyStep s k with
      | .error e => .error e
      | .ok s1 =>
          let s2 := { s1 with currentMapKeyMatch := none }
          match s1.currentMapKeyMatch with
          | some true =>
              let s3 := { s2 with currentPathIndex := s2.currentPathIndex + 1 }
              let r :=
                if s3.currentPathIndex = s3.path.length then
                  match serializeValue { s3 with readyToCapture := true } v with
                  | .ok s4 => .ok { s4 with readyToCapture := false }
                  | .error e => .error e
                else serializeValue s3 v
              match r with
              | .ok s4 =>
                  serializeMapEntries { s4 with currentPathIndex := s4.currentPathIndex - 1 } rest
              | .error e => .error e
          | some false | none =>
              let _ := serializeValue (withMode [] .Scalar) v
              serializeMapEntries s2 rest
end

namespace FieldExtractor

/-- Mirror of `FieldExtractor::evaluate` (`src/extractor.rs`): drive the
record through a serializer configured for the single segment `fieldName` in
`Scalar` mode; a missing result becomes `FieldNotFound`. -/
def evaluate (fieldName : String) (record : Value) : Except EvaluateError FieldScalarValue :=
  match serializeValue (withMode [fieldName] .Scalar) record with
  | .error e => .error e
  | .ok s =>
      match s.value with
      | some v => .ok v
      | none => .error (.FieldNotFound fieldName)

end FieldExtractor

namespace NestedFieldExtractor

/-- Mirror of `NestedFieldExtractor::new_from_path`: reject an empty path or
any empty segment. -/
def newFromPath (pathSegments : List String) : Except EvaluateError (List String) :=
  if pathSegments.isEmpty then
    .error (.InvalidPath "Path cannot be empty")
  else if pathSegments.any (fun seg => seg.isEmpty) then
    .error (.InvalidPath "Path segments cannot be empty")
  else .ok pathSegments

/-- Mirror of `NestedFieldExtractor::evaluate`: drive the record through a
serializer configured for `pathSegments` in `Scalar` mode; a missing result
becomes `NestedFieldNotFound` carrying the requested path (the facade itself
reports no failed index). -/
def evaluate (pathSegments : List String) (record : Value) :
    Except EvaluateError FieldScalarValue :=
  match serializeValue (withMode pathSegments .Scalar) record with
  | .error e => .error e
  | .ok s =>
      match s.value with
      | some v => .ok v
      | none => .error (.NestedFieldNotFound pathSegments none)

end NestedFieldExtractor

namespace ListFieldExtractor

/-- Mirror of `ListFieldExtractor::evaluate` together with
`into_list_result`: the collected `list_values` are returned when the
sentinel `value` is set, else `FieldNotFound`. -/
def evaluate (fieldName : String) (record : Value) :
    Except EvaluateError (List FieldScalarValue) :=
  match serializeValue (withMode [fieldName] .List) record with
  | .error e => .error e
  | .ok s =>
      if s.value.isSome then .ok s.listValues
      else .error (.FieldNotFound fieldName)

end ListFieldExtractor

namespace NestedListFieldExtractor

/-- Mirror of `NestedListFieldExtractor::evaluate` together with
`into_list_result`. -/
def evaluate (pathSegments : List String) (record : Value) :
    Except EvaluateError (List FieldScalarValue) :=
  match serializeValue (withMode pathSegments .List) record with
  | .error e => .error e
  | .ok s =>
      if s.value.isSome then .ok s.listValues
      else .error (.NestedFieldNotFound pathSegments none)

end NestedListFieldExtractor

namespace CompositeFieldExtractor

/-- Modelled from the spec: `CompositeFieldExtractor` (the Composite Driver of
spec §4.4) has no source file among the provided sources — only its tests.
Per the spec it invokes a fresh traversal engine per requested path against
the same source value, in the given order, stops at the first error
(fail-fast), and on full success returns the captured values in request
order, duplicates evaluated independently.  Its tests show the per-path
engine is `NestedFieldExtractor::evaluate` (single-segment misses surface as
`NestedFieldNotFound` with a one-segment path). -/
def evaluate (paths : List (List String)) (record : Value) :
    Except EvaluateError (List FieldScalarValue) :=
  match paths with
  | [] => .ok []
  | p :: rest =>
      match NestedFieldExtractor.evaluate p record with
      | .error e => .error e
      | .ok v =>
          match evaluate rest record with
          | .error e => .error e
          | .ok vs => .ok (v :: vs)

end CompositeFieldExtractor

/-- One input per supported scalar kind of the claimable surface (`bool`,
signed/unsigned integers of width 8-128, `f32`/`f64`, `char`, string, bytes,
unit), used to quantify claims over "any supported scalar value". -/
inductive ScalarInput where
  | bool (b : Bool) : ScalarInput
  | i8 (n : Int) : ScalarInput
  | i16 (n : Int) : ScalarInput
  | i32 (n : Int) : ScalarInput
  | i64 (n : Int) : ScalarInput
  | i128 (n : Int) : ScalarInput
  | u8 (n : Nat) : ScalarInput
  | u16 (n : Nat) : ScalarInput
  | u32 (n : Nat) : ScalarInput
  | u64 (n : Nat) : ScalarInput
  | u128 (n : Nat) : ScalarInput
  | f32 (bits : Nat) : ScalarInput
  | f64 (bits : Nat) : ScalarInput
  | char (c : Char) : ScalarInput
  | str (s : String) : ScalarInput
  | bytes (bs : List Nat) : ScalarInput
  | unit : ScalarInput

/-- The serde value a `ScalarInput` serializes as. -/
def ScalarInput.toValue : ScalarInput → Value
  | .bool b => .vBool b
  | .i8 n => .vI8 n
  | .i16 n => .vI16 n
  | .i32 n => .vI32 n
  | .i64 n => .vI64 n
  | .i128 n => .vI128 n
  | .u8 n => .vU8 n
  | .u16 n => .vU16 n
  | .u32 n => .vU32 n
  | .u64 n => .vU64 n
  | .u128 n => .vU128 n
  | .f32 bits => .vF32 bits
  | .f64 bits => .vF64 bits
  | .char c => .vChar c
  | .str s => .vStr s
  | .bytes bs => .vBytes bs
  | .unit => .vUnit

/-- The `FieldScalarValue` variant of the same width and kind that a
`ScalarInput` should extract to. -/
def ScalarInput.toScalar : ScalarInput → FieldScalarValue
  | .bool b => .bool b
  | .i8 n => .i8 n
  | .i16 n => .i16 n
  | .i32 n => .i32 n
  | .i64 n => .i64 n
  | .i128 n => .i128 n
  | .u8 n => .u8 n
  | .u16 n => .u16 n
  | .u32 n => .u32 n
  | .u64 n => .u64 n
  | .u128 n => .u128 n
  | .f32 bits => .f32 bits
  | .f64 bits => .f64 bits
  | .char c => .char c
  | .str s => .string s
  | .bytes bs => .bytes bs
  | .unit => .unit

/-- Concatenation of field lists (struct fields in declaration order). -/
def FieldList.append : FieldList → FieldList → FieldList
  | .nil, ys => ys
  | .cons k v rest, ys => .cons k v (FieldList.append rest ys)

/-- Whether a field list contains a field with the given name. -/
def FieldList.hasKey : FieldList → String → Bool
  | .nil, _ => false
  | .cons k _ rest, name => if k = name then true else FieldList.hasKey rest name

/-- Whether a value's topmost shape is a compound one in the sense of claim
C5: struct, map, nested sequence, tuple (incl. tuple struct), or a variant
carrying data (newtype, tuple or struct variant). -/
def Value.isCompoundTop : Value → Bool
  | .vSeq _ => true
  | .vTuple _ => true
  | .vTupleStruct _ _ => true
  | .vTupleVariant _ _ _ => true
  | .vMap _ => true
  | .vStruct _ _ => true
  | .vStructVariant _ _ _ => true
  | .vNewtypeVariant _ _ _ => true
  | _ => false

/-- Whether some element of the list is compound at its topmost shape. -/
def ValueList.containsCompound : ValueList → Bool
  | .nil => false
  | .cons v rest => v.isCompoundTop || ValueList.containsCompound rest

/-- Whether an error is an `UnsupportedType` or `UnsupportedVariant` error. -/
def EvaluateError.isUnsupported : EvaluateError → Bool
  | .UnsupportedType _ => true
  | .UnsupportedVariant _ => true
  | _ => false

/-- Whether a serde value is a plain string (the only accepted map key
shape). -/
def Value.isStringValue : Value → Bool
  | .vStr _ => true
  | _ => false

/-- Serializing any supported scalar input through the main serializer is one
`capture_value` call on the matching `FieldScalarValue` variant. -/
theorem serializeValue_scalarInput (s : ExtractorState) (x : ScalarInput) :
    serializeValue s x.toValue = .ok (captureValue s x.toScalar) := by
  cases x <;> rfl

/-- Once a result is stored, `serialize_field` ignores every remaining field. -/
theorem serializeStructFields_found (s : ExtractorState) (h : s.value.isSome = true) :
    (fs : FieldList) → serializeStructFields s fs = .ok s
  | .nil => by simp [serializeStructFields]
  | .cons k v rest => by
      simp [serializeStructFields, h]
      exact serializeStructFields_found s h rest

/-- Fields whose names differ from the current path segment are skipped
without being serialized and without touching the state. -/
theorem serializeStructFields_skip (s : ExtractorState) (name : String)
    (hseg : s.path[s.currentPathIndex]? = some name) :
    (pre rest : FieldList) → pre.hasKey name = false →
      serializeStructFields s (pre.append rest) = serializeStructFields s rest
  | .nil, rest, _ => by simp [FieldList.append]
  | .cons k v pre, rest, h => by
      have hk : ¬ (k = name) := by
        intro hkn
        simp [FieldList.hasKey, hkn] at h
      have hpre : pre.hasKey name = false := by
        simp [FieldList.hasKey, hk] at h
        exact h
      have ih := serializeStructFields_skip s name hseg pre rest hpre
      by_cases hv : s.value.isSome
      · simp [FieldList.append, serializeStructFields, hv, ih]
      · have hne : ¬ (s.path[s.currentPathIndex]? = some k) := by
          rw [hseg]
          intro hc
          have : name = k := by injection hc
          exact hk this.symm
        simp [FieldList.append, serializeStructFields, hv, hne, ih]

/-- A struct none of whose fields matches the current path segment leaves the
serializer state untouched. -/
theorem serializeStructFields_no_match (s : ExtractorState) (name : String)
    (hseg : s.path[s.currentPathIndex]? = some name) :
    (fs : FieldList) → fs.hasKey name = false → serializeStructFields s fs = .ok s
  | .nil, _ => by simp [serializeStructFields]
  | .cons k v rest, h => by
      have hk : ¬ (k = name) := by
        intro hkn
        simp [FieldList.hasKey, hkn] at h
      have hrest : rest.hasKey name = false := by
        simp [FieldList.hasKey, hk] at h
        exact h
      have ih := serializeStructFields_no_match s name hseg rest hrest
      by_cases hv : s.value.isSome
      · simp [serializeStructFields, hv, ih]
      · have hne : ¬ (s.path[s.currentPathIndex]? = some k) := by
          rw [hseg]
          intro hc
          have : name = k := by injection hc
          exact hk this.symm
        simp [serializeStructFields, hv, hne, ih]

/-- Running the serializer on a single-segment path over a struct whose target
field serializes successfully with a stored result: earlier non-matching
fields are skipped, the target field is serialized with `ready_to_capture`
set, and later fields are ignored. -/
theorem serializeValue_single_field_ok
    (f sname : String) (m : ExtractionMode) (pre post : FieldList) (v : Value)
    (s2 : ExtractorState)
    (hpre : pre.hasKey f = false)
    (hv : serializeValue
        { withMode [f] m with currentPathIndex := 1, readyToCapture := true } v = .ok s2)
    (hs2 : s2.value.isSome = true) :
    serializeValue (withMode [f] m) (.vStruct sname (pre.append (.cons f v post))) =
      .ok { s2 with readyToCapture := false, currentPathIndex := s2.currentPathIndex - 1 } := by
  have hseg : (withMode [f] m).path[(withMode [f] m).currentPathIndex]? = some f := rfl
  have h1 := serializeStructFields_skip (withMode [f] m) f hseg pre (.cons f v post) hpre
  simp [withMode] at hv h1 ⊢
  simp [serializeValue, h1, serializeStructFields, withMode, hv, hs2,
    serializeStructFields_found, structEnd]
  intro hnone
  exact absurd hs2 (by simp [hnone])

/-- Error counterpart of `serializeValue_single_field_ok`: an error raised
while serializing the matched target field propagates out of the struct. -/
theorem serializeValue_single_field_err
    (f sname : String) (m : ExtractionMode) (pre post : FieldList) (v : Value)
    (e : EvaluateError)
    (hpre : pre.hasKey f = false)
    (hv : serializeValue
        { withMode [f] m with currentPathIndex := 1, readyToCapture := true } v = .error e) :
    serializeValue (withMode [f] m) (.vStruct sname (pre.append (.cons f v post))) = .error e := by
  have hseg : (withMode [f] m).path[(withMode [f] m).currentPathIndex]? = some f := rfl
  have h1 := serializeStructFields_skip (withMode [f] m) f hseg pre (.cons f v post) hpre
  simp [withMode] at hv h1 ⊢
  simp [serializeValue, h1, serializeStructFields, withMode, hv]

/-- Every error of the scalar-capture sub-serializer is an `UnsupportedType`
or `UnsupportedVariant` error. -/
theorem captureScalar_err_isUnsupported :
    (v : Value) → ∀ e, captureScalar v = .error e → e.isUnsupported = true
  | .vBool _, e, h => by simp [captureScalar] at h
  | .vI8 _, e, h => by simp [captureScalar] at h
  | .vI16 _, e, h => by simp [captureScalar] at h
  | .vI32 _, e, h => by simp [captureScalar] at h
  | .vI64 _, e, h => by simp [captureScalar] at h
  | .vI128 _, e, h => by simp [captureScalar] at h
  | .vU8 _, e, h => by simp [captureScalar] at h
  | .vU16 _, e, h => by simp [captureScalar] at h
  | .vU32 _, e, h => by simp [captureScalar] at h
  | .vU64 _, e, h => by simp [captureScalar] at h
  | .vU128 _, e, h => by simp [captureScalar] at h
  | .vF32 _, e, h => by simp [captureScalar] at h
  | .vF64 _, e, h => by simp [captureScalar] at h
  | .vChar _, e, h => by simp [captureScalar] at h
  | .vStr _, e, h => by simp [captureScalar] at h
  | .vBytes _, e, h => by simp [captureScalar] at h
  | .vNone, e, h => by simp [captureScalar] at h
  | .vUnit, e, h => by simp [captureScalar] at h
  | .vUnitStruct _, e, h => by simp [captureScalar] at h
  | .vUnitVariant _ _, e, h => by simp [captureScalar] at h
  | .vSome inner, e, h => by
      cases hc : captureScalar inner with
      | error e2 =>
          simp [captureScalar, hc] at h
          exact h ▸ captureScalar_err_isUnsupported inner e2 hc
      | ok o => cases o <;> simp [captureScalar, hc] at h
  | .vNewtypeStruct _ inner, e, h =>
      captureScalar_err_isUnsupported inner e h
  | .vNewtypeVariant _ _ _, e, h => by
      simp [captureScalar] at h
      simp [← h, EvaluateError.isUnsupported]
  | .vSeq _, e, h => by
      simp [captureScalar] at h
      simp [← h, EvaluateError.isUnsupported]
  | .vTuple _, e, h => by
      simp [captureScalar] at h
      simp [← h, EvaluateError.isUnsupported]
  | .vTupleStruct _ _, e, h => by
      simp [captureScalar] at h
      simp [← h, EvaluateError.isUnsupported]
  | .vTupleVariant _ _ _, e, h => by
      simp [captureScalar] at h
      simp [← h, EvaluateError.isUnsupported]
  | .vMap _, e, h => by
      simp [captureScalar] at h
      simp [← h, EvaluateError.isUnsupported]
  | .vStruct _ _, e, h => by
      simp [captureScalar] at h
      simp [← h, EvaluateError.isUnsupported]
  | .vStructVariant _ _ _, e, h => by
      simp [captureScalar] at h
      simp [← h, EvaluateError.isUnsupported]

/-- A compound-topped value is rejected by the scalar-capture sub-serializer
with an unsupported-type or unsupported-variant error. -/
theorem captureScalar_compound_err (v : Value) (h : v.isCompoundTop = true) :
    ∃ e, captureScalar v = .error e ∧ e.isUnsupported = true := by
  cases v <;> simp [Value.isCompoundTop] at h <;> exact ⟨_, rfl, rfl⟩

/-- List capture over elements containing a compound one fails with an
unsupported error (at the first failing element). -/
theorem serializeListElems_err :
    (es : ValueList) → (s : ExtractorState) → es.containsCompound = true →
      ∃ e, serializeListElems s es = .error e ∧ e.isUnsupported = true
  | .nil, s, h => by simp [ValueList.containsCompound] at h
  | .cons v rest, s, h => by
      cases hc : captureScalar v with
      | error e =>
          exact ⟨e, by simp [serializeListElems, hc], captureScalar_err_isUnsupported v e hc⟩
      | ok o =>
          have hvc : v.isCompoundTop = false := by
            cases hvc : v.isCompoundTop
            · rfl
            · obtain ⟨e2, he2, _⟩ := captureScalar_compound_err v hvc
              rw [he2] at hc
              cases hc
          have hrest : rest.containsCompound = true := by
            simp [ValueList.containsCompound, hvc] at h
            exact h
          cases o with
          | some sc =>
              obtain ⟨e2, he2, hu2⟩ :=
                serializeListElems_err rest { s with listValues := s.listValues ++ [sc] } hrest
              exact ⟨e2, by simp [serializeListElems, hc, he2], hu2⟩
          | none =>
              obtain ⟨e2, he2, hu2⟩ := serializeListElems_err rest s hrest
              exact ⟨e2, by simp [serializeListElems, hc, he2], hu2⟩

/-- A non-string map key is rejected by the key serializer with an
`UnsupportedType` error. -/
theorem captureKey_nonstring (k : Value) (h : k.isStringValue = false) :
    ∃ msg, captureKey k = .error (.UnsupportedType msg) := by
  cases k <;> simp [Value.isStringValue] at h ⊢ <;> exact ⟨_, rfl⟩

/-- Claim C1: for every struct record containing a field with the requested
name (first occurrence) whose value is a supported scalar (bool, signed or
unsigned integer of width 8-128, f32/f64, char, string, bytes, unit),
`FieldExtractor::evaluate` with that field name returns `Ok` of exactly that
value in the `FieldScalarValue` variant of the same width and kind, never
widened or converted. -/
theorem c1_scalar_field_extracted_exactly (sname f : String) (pre post : FieldList)
    (x : ScalarInput) (hpre : pre.hasKey f = false) :
    FieldExtractor.evaluate f (.vStruct sname (pre.append (.cons f x.toValue post))) =
      .ok x.toScalar := by
  have hv := serializeValue_scalarInput
    { withMode [f] .Scalar with currentPathIndex := 1, readyToCapture := true } x
  simp [captureValue, withMode, wrapInOptions] at hv
  have hmain := serializeValue_single_field_ok f sname .Scalar pre post x.toValue _ hpre
    (by simpa [withMode] using hv) (by simp)
  simp [FieldExtractor.evaluate, hmain]

/-- Claim C1 witness: extracting the `u32` field `"age"` of a concrete record
yields exactly `U32 30`. -/
theorem c1_scalar_field_extracted_exactly_witness :
    (FieldList.cons "id" (.vStr "x") .nil).hasKey "age" = false
  ∧ FieldExtractor.evaluate "age"
      (.vStruct "Record" ((FieldList.cons "id" (.vStr "x") .nil).append
        (.cons "age" (ScalarInput.u32 30).toValue (.cons "score" .vUnit .nil)))) =
      .ok (ScalarInput.u32 30).toScalar :=
  ⟨rfl, c1_scalar_field_extracted_exactly "Record" "age"
    (.cons "id" (.vStr "x") .nil) (.cons "score" .vUnit .nil) (.u32 30) rfl⟩

/-- Claim C2: the code violates the claim — with the record being the map
`{"a": 5_i32}` and the path `["a", "b"]`, the intermediate (non-final)
segment `"a"` resolves to the plain scalar `5`, yet
`NestedFieldExtractor::evaluate` returns `Ok(I32(5))` instead of an error:
`serialize_map` sets `ready_to_capture` whenever the path is not yet
exhausted, and the non-final branch of `SerializeMap::serialize_value` never
clears it, so the intermediate scalar is captured and returned. -/
theorem c2_intermediate_scalar_under_map_leaks_ok :
    NestedFieldExtractor.evaluate ["a", "b"]
      (.vMap (.cons (.vStr "a") (.vI32 5) .nil)) = .ok (.i32 5) := rfl

/-- Claim C3: extracting `Some(x)` yields `Option(Some(x))`, `None` yields
`Option(None)`, `Some(Some(x))` yields `Option(Some(Option(Some(x))))`,
`Some(None)` yields `Option(Some(Option(None)))`, and the three doubly
nested results are pairwise distinct, so the option shape is recoverable. -/
theorem c3_option_shapes_round_trip (f sname : String) (x : ScalarInput) :
    FieldExtractor.evaluate f (.vStruct sname (.cons f (.vSome x.toValue) .nil)) =
      .ok (.option (some x.toScalar))
  ∧ FieldExtractor.evaluate f (.vStruct sname (.cons f .vNone .nil)) = .ok (.option none)
  ∧ FieldExtractor.evaluate f (.vStruct sname (.cons f (.vSome (.vSome x.toValue)) .nil)) =
      .ok (.option (some (.option (some x.toScalar))))
  ∧ FieldExtractor.evaluate f (.vStruct sname (.cons f (.vSome .vNone) .nil)) =
      .ok (.option (some (.option none)))
  ∧ (FieldScalarValue.option (some (.option (some x.toScalar))) ≠
      .option (some (.option none)))
  ∧ (FieldScalarValue.option (some (.option (some x.toScalar))) ≠ .option none)
  ∧ (FieldScalarValue.option (some (.option none)) ≠ .option none) := by
  refine ⟨?_, ?_, ?_, ?_, by simp, by simp, by simp⟩ <;>
    simp [FieldExtractor.evaluate, serializeValue, serializeStructFields, withMode,
      captureValue, structEnd, wrapInOptions, serializeValue_scalarInput]

/-- Claim C4: list-mode extraction of an empty sequence returns a
found-but-empty list, of an absent `Option` of a sequence also returns a
found-but-empty list, and of a missing field returns a `FieldNotFound`
error, so the two empty cases are distinguishable from the missing field. -/
theorem c4_list_empty_vs_missing (sname f : String) (pre post fields : FieldList)
    (hpre : pre.hasKey f = false) (hmiss : fields.hasKey f = false) :
    ListFieldExtractor.evaluate f
      (.vStruct sname (pre.append (.cons f (.vSeq .nil) post))) = .ok []
  ∧ ListFieldExtractor.evaluate f
      (.vStruct sname (pre.append (.cons f .vNone post))) = .ok []
  ∧ ListFieldExtractor.evaluate f (.vStruct sname fields) =
      .error (.FieldNotFound f) := by
  refine ⟨?_, ?_, ?_⟩
  · have hv : serializeValue
        { withMode [f] .List with currentPathIndex := 1, readyToCapture := true } (.vSeq .nil) =
        .ok { withMode [f] .List with
              currentPathIndex := 1
              readyToCapture := false
              value := some .unit } := rfl
    have hmain := serializeValue_single_field_ok f sname .List pre post (.vSeq .nil) _ hpre hv
      (by simp)
    simp [withMode] at hmain
    simp [ListFieldExtractor.evaluate, hmain, withMode]
  · have hv : serializeValue
        { withMode [f] .List with currentPathIndex := 1, readyToCapture := true } .vNone =
        .ok { withMode [f] .List with
              currentPathIndex := 1
              readyToCapture := false
              value := some .unit } := rfl
    have hmain := serializeValue_single_field_ok f sname .List pre post .vNone _ hpre hv
      (by simp)
    simp [withMode] at hmain
    simp [ListFieldExtractor.evaluate, hmain, withMode]
  · have hseg : (withMode [f] .List).path[(withMode [f] .List).currentPathIndex]? = some f := rfl
    have hnm := serializeStructFields_no_match (withMode [f] .List) f hseg fields hmiss
    simp [withMode] at hnm
    simp [ListFieldExtractor.evaluate, serializeValue, hnm, structEnd, withMode]

/-- Claim C4 witness: concrete empty sequence, absent option and missing
field. -/
theorem c4_list_empty_vs_missing_witness :
    (FieldList.cons "id" (.vU32 1) .nil).hasKey "tags" = false
  ∧ (FieldList.cons "other" .vUnit .nil).hasKey "tags" = false
  ∧ ListFieldExtractor.evaluate "tags"
      (.vStruct "R" ((FieldList.cons "id" (.vU32 1) .nil).append
        (.cons "tags" (.vSeq .nil) .nil))) = .ok []
  ∧ ListFieldExtractor.evaluate "tags"
      (.vStruct "R" ((FieldList.cons "id" (.vU32 1) .nil).append
        (.cons "tags" .vNone .nil))) = .ok []
  ∧ ListFieldExtractor.evaluate "tags"
      (.vStruct "R" (.cons "other" .vUnit .nil)) = .error (.FieldNotFound "tags") := by
  have h := c4_list_empty_vs_missing "R" "tags" (.cons "id" (.vU32 1) .nil) .nil
    (.cons "other" .vUnit .nil) rfl rfl
  exact ⟨rfl, rfl, h.1, h.2.1, h.2.2⟩

/-- Claim C5: list-mode extraction of a target sequence containing at least
one compound element (struct, map, nested sequence, tuple, tuple struct, or
variant carrying data) returns an `UnsupportedType` or `UnsupportedVariant`
error; no partial list of earlier elements is returned. -/
theorem c5_list_compound_element_unsupported (sname f : String) (pre post : FieldList)
    (elems : ValueList)
    (hpre : pre.hasKey f = false) (hcomp : elems.containsCompound = true) :
    ∃ e, ListFieldExtractor.evaluate f
        (.vStruct sname (pre.append (.cons f (.vSeq elems) post))) = .error e
      ∧ e.isUnsupported = true := by
  obtain ⟨e, he, hu⟩ := serializeListElems_err elems
    { withMode [f] .List with currentPathIndex := 1, readyToCapture := true } hcomp
  have hv : serializeValue
      { withMode [f] .List with currentPathIndex := 1, readyToCapture := true } (.vSeq elems) =
      .error e := by
    simp [serializeValue, withMode] at he ⊢
    simp [he]
  have hmain := serializeValue_single_field_err f sname .List pre post (.vSeq elems) e hpre hv
  exact ⟨e, by simp [ListFieldExtractor.evaluate, hmain], hu⟩

/-- Claim C5 witness: a sequence whose second element is a struct fails with
an unsupported error even though the first element is a plain string. -/
theorem c5_list_compound_element_unsupported_witness :
    (FieldList.nil).hasKey "tags" = false
  ∧ (ValueList.cons (.vStr "x") (.cons (.vStruct "Q" .nil) .nil)).containsCompound = true
  ∧ ∃ e, ListFieldExtractor.evaluate "tags"
        (.vStruct "R" ((FieldList.nil).append
          (.cons "tags" (.vSeq (.cons (.vStr "x") (.cons (.vStruct "Q" .nil) .nil))) .nil))) =
        .error e
      ∧ e.isUnsupported = true :=
  ⟨rfl, rfl, c5_list_compound_element_unsupported "R" "tags" .nil .nil
    (.cons (.vStr "x") (.cons (.vStruct "Q" .nil) .nil)) rfl rfl⟩

/-- Claim C6 counterexample: the claim says a non-string map key encountered
while within path depth and with no result yet is treated as a non-match and
extraction continues without error; but with the map
`{true: (), "a": 7_u32}` and path `["a"]`, the boolean key aborts the whole
extraction with `UnsupportedType("Map key must be a string")` — the present
target `"a"` is never reached. -/
theorem c6_nonstring_key_aborts_cex :
    NestedFieldExtractor.evaluate ["a"]
      (.vMap (.cons (.vBool true) .vUnit (.cons (.vStr "a") (.vU32 7) .nil))) =
      .error (.UnsupportedType "Map key must be a string") := rfl

/-- Claim C6 as amended: while within path depth and with no result yet, a
non-string map key is rejected with an `UnsupportedType` error that aborts
the extraction (the key resolver propagates its rejection); only a
non-matching string key is treated as a no-match whose value is drained
through the skip sink, leaving the extraction unaffected. -/
theorem c6_nonstring_key_rejected (p : List String) (k v : Value) (rest : EntryList)
    (hp : p ≠ []) :
    (k.isStringValue = false →
      ∃ msg, NestedFieldExtractor.evaluate p (.vMap (.cons k v rest)) =
        .error (.UnsupportedType msg))
  ∧ (∀ ks, k = .vStr ks → p[0]? ≠ some ks →
      NestedFieldExtractor.evaluate p (.vMap (.cons k v rest)) =
        NestedFieldExtractor.evaluate p (.vMap rest)) := by
  obtain ⟨q, qs, rfl⟩ := List.exists_cons_of_ne_nil hp
  constructor
  · intro hns
    obtain ⟨msg, hk⟩ := captureKey_nonstring k hns
    exact ⟨msg, by simp [NestedFieldExtractor.evaluate, serializeValue, serializeMapEntries,
      mapKeyStep, withMode, hk]⟩
  · intro ks hks hnm
    subst hks
    simp only [List.getElem?_cons_zero] at hnm
    have hnq : ¬ (q = ks) := by
      intro hqq
      exact hnm (by rw [hqq])
    have hstep : mapKeyStep { withMode (q :: qs) .Scalar with readyToCapture := true }
        (.vStr ks) =
        .ok { withMode (q :: qs) .Scalar with
              readyToCapture := true
              currentMapKeyMatch := some false } := by
      simp [mapKeyStep, withMode, captureKey, hnq]
    simp [withMode] at hstep
    simp [NestedFieldExtractor.evaluate, serializeValue, serializeMapEntries, hstep, withMode]

/-- Claim C6 witness: a boolean key aborts; a non-matching string key is
drained and the entry behaves as if absent. -/
theorem c6_nonstring_key_rejected_witness :
    (Value.vBool true).isStringValue = false
  ∧ (∃ msg, NestedFieldExtractor.evaluate ["a"]
      (.vMap (.cons (.vBool true) .vUnit .nil)) = .error (.UnsupportedType msg))
  ∧ NestedFieldExtractor.evaluate ["a"]
      (.vMap (.cons (.vStr "z") .vUnit (.cons (.vStr "a") (.vU32 7) .nil))) =
      NestedFieldExtractor.evaluate ["a"] (.vMap (.cons (.vStr "a") (.vU32 7) .nil)) :=
  ⟨rfl,
   (c6_nonstring_key_rejected ["a"] (.vBool true) .vUnit .nil (by simp)).1 rfl,
   (c6_nonstring_key_rejected ["a"] (.vStr "z") .vUnit
     (.cons (.vStr "a") (.vU32 7) .nil) (by simp)).2 "z" rfl (by simp)⟩

/-- Claim C7: errors arising while draining a skipped, non-matching map
sibling are swallowed — extraction of the requested field succeeds for every
sibling value, including ones whose own serialization fails (e.g. a tuple
variant, which the drain serializer rejects with `UnsupportedVariant`, as the
second conjunct shows on the drain serializer itself). -/
theorem c7_skipped_sibling_errors_swallowed (badv : Value) (x : ScalarInput) :
    NestedFieldExtractor.evaluate ["t"]
      (.vMap (.cons (.vStr "bad") badv (.cons (.vStr "t") x.toValue .nil))) = .ok x.toScalar
  ∧ serializeValue (withMode [] .Scalar) (.vTupleVariant "E" "V" .nil) =
      .error (.UnsupportedVariant "tuple") := by
  refine ⟨?_, rfl⟩
  simp [NestedFieldExtractor.evaluate, serializeValue, serializeMapEntries, mapKeyStep,
    withMode, captureKey, captureValue, wrapInOptions, serializeValue_scalarInput]

/-- Claim C8: the code violates the claim — with the record being the map
`{"x": true}` and the valid path `["x", "y"]`, the final segment `"y"` names
no existing field, yet `NestedFieldExtractor::evaluate` returns
`Ok(Bool(true))` (the value found one level short of the path's end) instead
of a not-found error carrying the requested path — the same
`ready_to_capture` leak as in claim C2. -/
theorem c8_missing_final_segment_leaks_ok :
    NestedFieldExtractor.evaluate ["x", "y"]
      (.vMap (.cons (.vStr "x") (.vBool true) .nil)) = .ok (.bool true) := rfl

/-- Claim C9 (composite driver modelled from the spec): composite extraction
is fail-fast and order-preserving — if the first path errors, that error is
the whole result no matter what the second path is (it is never evaluated);
if both succeed the results come back in request order; a duplicated path
yields its value twice, computed independently. -/
theorem c9_composite_fail_fast_in_order (p1 p2 : List String) (record : Value) :
    (∀ e, NestedFieldExtractor.evaluate p1 record = .error e →
      CompositeFieldExtractor.evaluate [p1, p2] record = .error e)
  ∧ (∀ v1 v2, NestedFieldExtractor.evaluate p1 record = .ok v1 →
      NestedFieldExtractor.evaluate p2 record = .ok v2 →
      CompositeFieldExtractor.evaluate [p1, p2] record = .ok [v1, v2])
  ∧ (∀ v1, NestedFieldExtractor.evaluate p1 record = .ok v1 →
      CompositeFieldExtractor.evaluate [p1, p1] record = .ok [v1, v1]) := by
  refine ⟨?_, ?_, ?_⟩
  · intro e h
    simp [CompositeFieldExtractor.evaluate, h]
  · intro v1 v2 h1 h2
    simp [CompositeFieldExtractor.evaluate, h1, h2]
  · intro v1 h1
    simp [CompositeFieldExtractor.evaluate, h1]

/-- Claim C9 witness: on a concrete record, a failing first path short
circuits with its error; two successful paths return in request order; a
duplicated path repeats its value. -/
theorem c9_composite_fail_fast_in_order_witness :
    NestedFieldExtractor.evaluate ["missing"]
      (.vStruct "R" (.cons "name" (.vStr "Alice") (.cons "age" (.vU32 30) .nil))) =
      .error (.NestedFieldNotFound ["missing"] none)
  ∧ CompositeFieldExtractor.evaluate [["missing"], ["name"]]
      (.vStruct "R" (.cons "name" (.vStr "Alice") (.cons "age" (.vU32 30) .nil))) =
      .error (.NestedFieldNotFound ["missing"] none)
  ∧ CompositeFieldExtractor.evaluate [["name"], ["age"]]
      (.vStruct "R" (.cons "name" (.vStr "Alice") (.cons "age" (.vU32 30) .nil))) =
      .ok [.string "Alice", .u32 30]
  ∧ CompositeFieldExtractor.evaluate [["name"], ["name"]]
      (.vStruct "R" (.cons "name" (.vStr "Alice") (.cons "age" (.vU32 30) .nil))) =
      .ok [.string "Alice", .string "Alice"] :=
  ⟨rfl,
   (c9_composite_fail_fast_in_order ["missing"] ["name"]
     (.vStruct "R" (.cons "name" (.vStr "Alice") (.cons "age" (.vU32 30) .nil)))).1
       (.NestedFieldNotFound ["missing"] none) rfl,
   (c9_composite_fail_fast_in_order ["name"] ["age"]
     (.vStruct "R" (.cons "name" (.vStr "Alice") (.cons "age" (.vU32 30) .nil)))).2.1
       (.string "Alice") (.u32 30) rfl rfl,
   (c9_composite_fail_fast_in_order ["name"] ["name"]
     (.vStruct "R" (.cons "name" (.vStr "Alice") (.cons "age" (.vU32 30) .nil)))).2.2
       (.string "Alice") rfl⟩

/-- Claim C10: a data-less (unit) enum variant extracts as
`FieldScalarValue::Unit`, both as a scalar target and as a sequence element
in list mode; only variants carrying data (newtype, tuple, struct variants)
are rejected as `UnsupportedVariant`. -/
theorem c10_unit_variant_extracts_unit (f sname ename vname : String) :
    FieldExtractor.evaluate f (.vStruct sname (.cons f (.vUnitVariant ename vname) .nil)) =
      .ok .unit
  ∧ ListFieldExtractor.evaluate f
      (.vStruct sname (.cons f (.vSeq (.cons (.vUnitVariant ename vname) .nil)) .nil)) =
      .ok [.unit]
  ∧ (∀ inner, FieldExtractor.evaluate f
      (.vStruct sname (.cons f (.vNewtypeVariant ename vname inner) .nil)) =
      .error (.UnsupportedVariant "newtype"))
  ∧ (∀ elems, FieldExtractor.evaluate f
      (.vStruct sname (.cons f (.vTupleVariant ename vname elems) .nil)) =
      .error (.UnsupportedVariant "tuple"))
  ∧ (∀ fields2, FieldExtractor.evaluate f
      (.vStruct sname (.cons f (.vStructVariant ename vname fields2) .nil)) =
      .error (.UnsupportedVariant "struct"))
  ∧ (∀ inner, ListFieldExtractor.evaluate f
      (.vStruct sname (.cons f (.vSeq (.cons (.vNewtypeVariant ename vname inner) .nil)) .nil)) =
      .error (.UnsupportedVariant "newtype")) := by
  refine ⟨?_, ?_, ?_, ?_, ?_, ?_⟩ <;>
    first
    | simp [FieldExtractor.evaluate, serializeValue, serializeStructFields, withMode,
        captureValue, structEnd, wrapInOptions]
    | (intro z
       simp [FieldExtractor.evaluate, ListFieldExtractor.evaluate, serializeValue,
         serializeStructFields, serializeListElems, captureScalar, withMode,
         captureValue, structEnd, wrapInOptions])
    | simp [ListFieldExtractor.evaluate, serializeValue, serializeStructFields,
        serializeListElems, captureScalar, withMode, captureValue, structEnd, wrapInOptions]
